import Mathlib

/-!
Verification development for the TheManush/Networking-Proj VPN tunnel.

Shallow embedding of the core of the repository:
  - src/shared/encryption.py   (EncryptionHandler: AES-256-CBC with PKCS7 padding)
  - src/server/tunnel_manager.py (TunnelManager: record framing and the dispatcher loop)
  - src/server/auth_handler.py (AuthHandler.create_auth_response)
  - src/server/vpn_server_enhanced.py (handshake step 4 send paths, stats snapshot)
  - src/server/flow_control.py (FlowController)

Bytes are modelled as natural numbers (each byte below 256 on real inputs; the
XOR and list operations used here do not depend on the bound).  The AES block
permutation itself lives in the `cryptography` library, outside this
repository; it is abstracted as a pair of functions on 16-byte blocks
`f` (encrypt) and `g` (decrypt) together with the hypotheses that `g`
inverts `f` on 16-byte blocks and that `f` preserves block length.  Every
operation the repository itself implements (PKCS7 padding and stripping, CBC
chaining, IV handling, framing, classification, flow control arithmetic) is
translated directly from the source.
-/

/-- Big-endian 4-byte encoding, as in Python `n.to_bytes(4, "big")`. -/
def beBytes4 (n : Nat) : List Nat :=
  [n / 16777216 % 256, n / 65536 % 256, n / 256 % 256, n % 256]

/-- Big-endian value of a byte list, as in Python `int.from_bytes(l, "big")`. -/
def beVal (l : List Nat) : Nat :=
  l.foldl (fun a b => a * 256 + b) 0

/-- Pointwise XOR of two byte lists (CBC chaining step). -/
def zipXor (a b : List Nat) : List Nat :=
  List.zipWith (fun x y => x ^^^ y) a b

/-- `EncryptionHandler._pad` (src/shared/encryption.py lines 72-76):
PKCS7 padding; always appends `16 - len(data) % 16` bytes, each equal to
that count (a full extra block when the length is already a multiple of 16). -/
def pyPad (data : List Nat) : List Nat :=
  let padl := 16 - data.length % 16
  data ++ List.replicate padl padl

/-- The last byte of a byte list, `data[-1]` in Python; 0 on the empty
list (the source raises IndexError there, a case callers guard). -/
def lastByte : List Nat → Nat
  | [] => 0
  | [a] => a
  | _ :: r => lastByte r

/-- `EncryptionHandler._unpad` (src/shared/encryption.py lines 78-82):
reads the last byte `b` and returns `data[:-b]`.  Python slice semantics:
`data[:-0]` is the empty bytes, and `data[:-b]` with `b` larger than the
length is also empty.  No check that the stripped bytes all equal `b`. -/
def pyUnpad (data : List Nat) : List Nat :=
  let b := lastByte data
  if b = 0 then [] else data.take (data.length - b)

/-- Fuel-indexed CBC encryption step; each 16-byte block is XORed with the
previous ciphertext block (initially the IV) and passed through the block
function `f`.  The fuel only bounds the recursion depth: one unit per
block suffices, and callers pass the list length. -/
def cbcEncAux (f : List Nat → List Nat) : Nat → List Nat → List Nat → List Nat
  | 0, _, _ => []
  | fuel + 1, prev, data =>
    if data = [] then []
    else
      let c := f (zipXor (data.take 16) prev)
      c ++ cbcEncAux f fuel c (data.drop 16)

/-- CBC-mode encryption over an abstract block function `f`
(the library call `encryptor.update(padded_data)` in `encrypt_aes`). -/
def cbcEnc (f : List Nat → List Nat) (prev data : List Nat) : List Nat :=
  cbcEncAux f data.length prev data

/-- Fuel-indexed CBC decryption step; each 16-byte ciphertext block is
passed through the block function `g` and XORed with the previous
ciphertext block (initially the IV). -/
def cbcDecAux (g : List Nat → List Nat) : Nat → List Nat → List Nat → List Nat
  | 0, _, _ => []
  | fuel + 1, prev, ct =>
    if ct = [] then []
    else
      let blk := ct.take 16
      zipXor (g blk) prev ++ cbcDecAux g fuel blk (ct.drop 16)

/-- CBC-mode decryption over an abstract block function `g`
(the library call `decryptor.update(ciphertext)` in `decrypt_aes`). -/
def cbcDec (g : List Nat → List Nat) (prev ct : List Nat) : List Nat :=
  cbcDecAux g ct.length prev ct

/-- Continuation byte test for UTF-8 (second and later bytes of a sequence). -/
def isContByte (b : Nat) : Bool :=
  128 ≤ b && b ≤ 191

/-- Strict UTF-8 validity, as enforced by Python `bytes.decode()` with the
default codec: rejects overlong encodings, surrogates (0xED 0xA0-0xBF) and
code points above U+10FFFF. -/
def isValidUtf8 : List Nat → Bool
  | [] => true
  | b :: rest =>
    if b ≤ 127 then isValidUtf8 rest
    else if 194 ≤ b && b ≤ 223 then
      match rest with
      | c1 :: r => isContByte c1 && isValidUtf8 r
      | [] => false
    else if b = 224 then
      match rest with
      | c1 :: c2 :: r => (160 ≤ c1 && c1 ≤ 191) && isContByte c2 && isValidUtf8 r
      | _ => false
    else if 225 ≤ b && b ≤ 236 then
      match rest with
      | c1 :: c2 :: r => isContByte c1 && isContByte c2 && isValidUtf8 r
      | _ => false
    else if b = 237 then
      match rest with
      | c1 :: c2 :: r => (128 ≤ c1 && c1 ≤ 159) && isContByte c2 && isValidUtf8 r
      | _ => false
    else if 238 ≤ b && b ≤ 239 then
      match rest with
      | c1 :: c2 :: r => isContByte c1 && isContByte c2 && isValidUtf8 r
      | _ => false
    else if b = 240 then
      match rest with
      | c1 :: c2 :: c3 :: r =>
        (144 ≤ c1 && c1 ≤ 191) && isContByte c2 && isContByte c3 && isValidUtf8 r
      | _ => false
    else if 241 ≤ b && b ≤ 243 then
      match rest with
      | c1 :: c2 :: c3 :: r =>
        isContByte c1 && isContByte c2 && isContByte c3 && isValidUtf8 r
      | _ => false
    else if b = 244 then
      match rest with
      | c1 :: c2 :: c3 :: r =>
        (128 ≤ c1 && c1 ≤ 143) && isContByte c2 && isContByte c3 && isValidUtf8 r
      | _ => false
    else false

/-- `EncryptionHandler.encrypt_aes` (src/shared/encryption.py lines 16-41):
pad the plaintext with PKCS7, CBC-encrypt under the abstract block function
`f`, and return `iv ++ ciphertext`.  The fresh random IV drawn by
`os.urandom(16)` is passed in as the parameter `iv`. -/
def encrypt_aes (f : List Nat → List Nat) (iv data : List Nat) : List Nat :=
  iv ++ cbcEnc f iv (pyPad data)

/-- `EncryptionHandler.decrypt_aes` (src/shared/encryption.py lines 43-70):
split off the first 16 bytes as IV, CBC-decrypt the rest under the abstract
block function `g`, strip with `_unpad`, and decode as UTF-8.  Failure cases
of the source, all modelled as `none`:
  - IV shorter than 16 bytes: the library raises ValueError when the Cipher
    is constructed with the short IV;
  - ciphertext length not a multiple of 16: `decryptor.finalize()` raises
    ValueError;
  - empty ciphertext: `_unpad` evaluates `data[-1]` on empty bytes and
    raises IndexError;
  - the stripped result is not valid UTF-8: `.decode()` raises
    UnicodeDecodeError.
No `ProtocolError` type exists anywhere in the repository, and no padding
well-formedness check is performed. -/
def decrypt_aes (g : List Nat → List Nat) (r : List Nat) : Option (List Nat) :=
  let iv := r.take 16
  let ct := r.drop 16
  if iv.length ≠ 16 then none
  else if ct.length % 16 ≠ 0 then none
  else
    let padded := cbcDec g iv ct
    if padded = [] then none
    else
      let stripped := pyUnpad padded
      if isValidUtf8 stripped then some stripped else none

theorem zipXor_cancel (a b : List Nat) (h : a.length ≤ b.length) :
    zipXor (zipXor a b) b = a := by
  induction a generalizing b with
  | nil => simp [zipXor]
  | cons x xs ih =>
    cases b with
    | nil => simp at h
    | cons y ys =>
      simp only [zipXor, List.zipWith] at *
      simp only [List.length_cons, Nat.add_le_add_iff_right] at h
      rw [Nat.xor_cancel_right]
      exact congrArg (x :: ·) (ih ys h)

theorem zipXor_length (a b : List Nat) : (zipXor a b).length = min a.length b.length := by
  simp [zipXor]

theorem take_append_len (a b : List Nat) (n : Nat) (h : a.length = n) :
    (a ++ b).take n = a := by
  subst h
  exact List.take_left a b

theorem drop_append_len (a b : List Nat) (n : Nat) (h : a.length = n) :
    (a ++ b).drop n = b := by
  subst h
  exact List.drop_left a b

/-- CBC encryption preserves length when the block function does and the
input length is a multiple of 16 (fuel-indexed form). -/
theorem cbcEncAux_length (f : List Nat → List Nat)
    (hflen : ∀ b, b.length = 16 → (f b).length = 16) :
    ∀ fuel data prev, data.length ≤ fuel → prev.length = 16 → data.length % 16 = 0 →
      (cbcEncAux f fuel prev data).length = data.length := by
  intro fuel
  induction fuel with
  | zero =>
    intro data prev hle _ _
    have hnil : data = [] := List.eq_nil_of_length_eq_zero (Nat.le_zero.mp hle)
    subst hnil
    rfl
  | succ n ih =>
    intro data prev hle hprev hmod
    by_cases hd : data = []
    · subst hd; rfl
    · have hpos : 0 < data.length := List.length_pos.mpr hd
      have h16 : 16 ≤ data.length := by
        rcases Nat.dvd_of_mod_eq_zero hmod with ⟨k, hk⟩
        omega
      have hblk : (data.take 16).length = 16 := by
        simp [List.length_take]; omega
      have hx : (zipXor (data.take 16) prev).length = 16 := by
        simp [zipXor_length, hblk, hprev]
      have hc : (f (zipXor (data.take 16) prev)).length = 16 := hflen _ hx
      show (if data = [] then []
        else
          let c := f (zipXor (data.take 16) prev)
          c ++ cbcEncAux f n c (data.drop 16)).length = data.length
      rw [if_neg hd]
      simp only [List.length_append, hc]
      have hrec : (cbcEncAux f n (f (zipXor (data.take 16) prev)) (data.drop 16)).length
          = (data.drop 16).length := by
        apply ih
        · simp [List.length_drop]; omega
        · exact hc
        · simp [List.length_drop]; omega
      rw [hrec]
      simp [List.length_drop]; omega

/-- CBC encryption preserves length when the block function does and the
input length is a multiple of 16. -/
theorem cbcEnc_length (f : List Nat → List Nat)
    (hflen : ∀ b, b.length = 16 → (f b).length = 16)
    (data prev : List Nat) (hprev : prev.length = 16) (hmod : data.length % 16 = 0) :
    (cbcEnc f prev data).length = data.length :=
  cbcEncAux_length f hflen data.length data prev le_rfl hprev hmod

/-- CBC decryption inverts CBC encryption, for any inverse pair of block
functions, any 16-byte chaining value and any input whose length is a
multiple of 16 (fuel-indexed form). -/
theorem cbcDecAux_cbcEncAux (f g : List Nat → List Nat)
    (hfg : ∀ b, b.length = 16 → g (f b) = b)
    (hflen : ∀ b, b.length = 16 → (f b).length = 16) :
    ∀ fuel data prev, data.length ≤ fuel → prev.length = 16 → data.length % 16 = 0 →
      cbcDecAux g fuel prev (cbcEncAux f fuel prev data) = data := by
  intro fuel
  induction fuel with
  | zero =>
    intro data prev hle _ _
    have hnil : data = [] := List.eq_nil_of_length_eq_zero (Nat.le_zero.mp hle)
    subst hnil
    rfl
  | succ n ih =>
    intro data prev hle hprev hmod
    by_cases hd : data = []
    · subst hd; rfl
    · have hpos : 0 < data.length := List.length_pos.mpr hd
      have h16 : 16 ≤ data.length := by
        rcases Nat.dvd_of_mod_eq_zero hmod with ⟨k, hk⟩
        omega
      have hblk : (data.take 16).length = 16 := by
        simp [List.length_take]; omega
      have hx : (zipXor (data.take 16) prev).length = 16 := by
        simp [zipXor_length, hblk, hprev]
      have hc : (f (zipXor (data.take 16) prev)).length = 16 := hflen _ hx
      have henc : cbcEncAux f (n + 1) prev data
          = f (zipXor (data.take 16) prev)
            ++ cbcEncAux f n (f (zipXor (data.take 16) prev)) (data.drop 16) := by
        show (if data = [] then []
          else
            let c := f (zipXor (data.take 16) prev)
            c ++ cbcEncAux f n c (data.drop 16)) = _
        rw [if_neg hd]
      rw [henc]
      have hne : f (zipXor (data.take 16) prev)
          ++ cbcEncAux f n (f (zipXor (data.take 16) prev)) (data.drop 16) ≠ [] := by
        intro hcontra
        rcases List.append_eq_nil.mp hcontra with ⟨h1, _⟩
        rw [h1] at hc
        simp at hc
      show (if f (zipXor (data.take 16) prev)
            ++ cbcEncAux f n (f (zipXor (data.take 16) prev)) (data.drop 16) = [] then []
        else _) = data
      rw [if_neg hne]
      have htake : List.take 16 (f (zipXor (data.take 16) prev)
          ++ cbcEncAux f n (f (zipXor (data.take 16) prev)) (data.drop 16))
          = f (zipXor (data.take 16) prev) :=
        take_append_len _ _ _ hc
      have hdrop : List.drop 16 (f (zipXor (data.take 16) prev)
          ++ cbcEncAux f n (f (zipXor (data.take 16) prev)) (data.drop 16))
          = cbcEncAux f n (f (zipXor (data.take 16) prev)) (data.drop 16) :=
        drop_append_len _ _ _ hc
      have hgf : g (f (zipXor (data.take 16) prev)) = zipXor (data.take 16) prev :=
        hfg _ hx
      have hxorback : zipXor (zipXor (data.take 16) prev) prev = data.take 16 := by
        apply zipXor_cancel
        rw [hblk, hprev]
      have hrec : cbcDecAux g n (f (zipXor (data.take 16) prev))
          (cbcEncAux f n (f (zipXor (data.take 16) prev)) (data.drop 16)) = data.drop 16 := by
        apply ih
        · simp [List.length_drop]; omega
        · exact hc
        · simp [List.length_drop]; omega
      simp only [htake, hdrop, hgf, hxorback, hrec]
      exact List.take_append_drop 16 data

/-- CBC decryption inverts CBC encryption. -/
theorem cbcDec_cbcEnc (f g : List Nat → List Nat)
    (hfg : ∀ b, b.length = 16 → g (f b) = b)
    (hflen : ∀ b, b.length = 16 → (f b).length = 16)
    (data prev : List Nat) (hprev : prev.length = 16) (hmod : data.length % 16 = 0) :
    cbcDec g prev (cbcEnc f prev data) = data := by
  unfold cbcDec cbcEnc
  have hl : (cbcEncAux f data.length prev data).length = data.length :=
    cbcEncAux_length f hflen data.length data prev le_rfl hprev hmod
  rw [hl]
  exact cbcDecAux_cbcEncAux f g hfg hflen data.length data prev le_rfl hprev hmod

theorem pyPad_length (data : List Nat) :
    (pyPad data).length = data.length + (16 - data.length % 16) := by
  simp [pyPad]

theorem pyPad_mod (data : List Nat) : (pyPad data).length % 16 = 0 := by
  rw [pyPad_length]
  omega

theorem pyPad_ne_nil (data : List Nat) : pyPad data ≠ [] := by
  intro hcontra
  have := congrArg List.length hcontra
  rw [pyPad_length] at this
  simp at this
  omega

theorem lastByte_append_singleton (l : List Nat) (a : Nat) :
    lastByte (l ++ [a]) = a := by
  induction l with
  | nil => rfl
  | cons x xs ih =>
    cases xs with
    | nil => rfl
    | cons y ys => simpa using ih

theorem pyUnpad_pyPad (data : List Nat) : pyUnpad (pyPad data) = data := by
  have hml : data.length % 16 < 16 := Nat.mod_lt _ (by norm_num)
  have hpos : 0 < 16 - data.length % 16 := by omega
  unfold pyUnpad pyPad
  have hlast : lastByte (data ++ List.replicate (16 - data.length % 16) (16 - data.length % 16))
      = 16 - data.length % 16 := by
    obtain ⟨m, hm⟩ : ∃ m, 16 - data.length % 16 = m + 1 := ⟨15 - data.length % 16, by omega⟩
    rw [hm, List.replicate_succ', ← List.append_assoc]
    exact lastByte_append_singleton _ _
  simp only [hlast]
  rw [if_neg (by omega)]
  have hlen : (data ++ List.replicate (16 - data.length % 16) (16 - data.length % 16)).length
      = data.length + (16 - data.length % 16) := by simp
  rw [hlen]
  have hsub : data.length + (16 - data.length % 16) - (16 - data.length % 16)
      = data.length := by
    omega
  rw [hsub]
  exact take_append_len _ _ _ rfl

/-! ### JSON replies

The server builds its replies as Python dicts and serialises them with
`json.dumps`.  A dict is modelled as an association list in insertion
order; values are modelled with the small `JVal` type. -/

/-- A JSON value as produced by the server: string, integer, boolean or
array.  (The repository never nests objects inside the replies modelled
here: `AuthHandler.create_auth_response` flattens `server_info` into the
top level, and the dispatcher stats reply is a flat dict of counters.) -/
inductive JVal where
  | s (v : String)
  | n (v : Int)
  | b (v : Bool)
  | arr (vs : List JVal)

/-- A JSON object: keys with values, in dict insertion order. -/
abbrev JObj := List (String × JVal)

/-- `dict.get(key)`: the first value stored under `key`, if any. -/
def jget : JObj → String → Option JVal
  | [], _ => none
  | (k, v) :: r, key => if k = key then some v else jget r key

/-- The key list of a JSON object, in order. -/
def jkeys (o : JObj) : List String := o.map Prod.fst

/-- One step of Python `dict.update`: replace the value in place if the key
exists, otherwise append the pair at the end. -/
def setKey : JObj → String × JVal → JObj
  | [], kv => [kv]
  | (k, v) :: r, (k2, v2) => if k = k2 then (k, v2) :: r else (k, v) :: setKey r (k2, v2)

/-- Python `response.update(server_info)`: fold `setKey` over the update
dict in order. -/
def pyDictUpdate (d u : JObj) : JObj := u.foldl setKey d

/-- `AuthHandler.create_auth_response` (src/server/auth_handler.py lines
51-72): build `\x7b"status": ..., "message": ...\x7d` and, when `server_info`
is a non-empty dict, merge its keys into the same top-level dict with
`response.update(server_info)`.  The `None` default corresponds to the
empty object here, and Python truthiness makes the empty dict skip the
update as well. -/
def createAuthResponse (success : Bool) (message : String) (serverInfo : JObj) : JObj :=
  let response : JObj :=
    [("status", JVal.s (if success then "success" else "error")),
     ("message", JVal.s message)]
  if serverInfo.isEmpty then response else pyDictUpdate response serverInfo

/-- The concrete `server_info` dict passed by
`VPNServerEnhanced._handle_client` on authentication success
(src/server/vpn_server_enhanced.py lines 170-179). -/
def successServerInfo (host : String) : JObj :=
  [("server_ip", JVal.s host),
   ("features", JVal.arr [JVal.s "tunneling", JVal.s "flow_control", JVal.s "encryption"]),
   ("encryption", JVal.s "AES-256-CBC"),
   ("key_exchange", JVal.s "RSA-2048-OAEP")]

/-- Handshake step 4, success branch (src/server/vpn_server_enhanced.py
lines 180-184): the encrypted auth response is sent as a 4-byte big-endian
length followed by the ciphertext. -/
def authSuccessWire (ct : List Nat) : List Nat := beBytes4 ct.length ++ ct

/-- Handshake step 4, rejection branch (src/server/vpn_server_enhanced.py
line 218): `client_socket.send(encrypted_response)` writes the ciphertext
with no length header at all. -/
def authRejectWire (ct : List Nat) : List Nat := ct

/-! ### Tunnel dispatcher (src/server/tunnel_manager.py)

The dispatcher loop `_tunnel_loop` reads one length-framed encrypted record
per iteration from the session stream, decrypts it, classifies the
plaintext and services it.  The incoming TCP stream is modelled as the list
of bytes the peer will deliver before closing; one loop iteration is the
function `tunnelStep`.  The classification works on the UTF-8 bytes of the
decrypted text; every literal the classifier compares against is ASCII, so
byte-level matching coincides with Python string matching. -/

/-- The per-session counters `TunnelManager.stats`
(src/server/tunnel_manager.py lines 33-39). -/
structure TunnelStats where
  bytes_sent : Nat
  bytes_received : Nat
  packets_sent : Nat
  packets_received : Nat
  connections : Nat
deriving DecidableEq

/-- Fresh counters of a new `TunnelManager`. -/
def initStats : TunnelStats :=
  { bytes_sent := 0, bytes_received := 0, packets_sent := 0
    packets_received := 0, connections := 0 }

/-- `json.dumps(self.stats)` in `TunnelManager._handle_stats_request`
(src/server/tunnel_manager.py lines 320-327): the reply object is the flat
counters dict, in insertion order. -/
def statsObj (st : TunnelStats) : JObj :=
  [("bytes_sent", JVal.n st.bytes_sent),
   ("bytes_received", JVal.n st.bytes_received),
   ("packets_sent", JVal.n st.packets_sent),
   ("packets_received", JVal.n st.packets_received),
   ("connections", JVal.n st.connections)]

/-- The keepalive acknowledgment of `TunnelManager._handle_keepalive`. -/
def keepaliveObj : JObj :=
  [("status", JVal.s "ok"), ("type", JVal.s "keepalive_ack")]

/-- The opaque-data acknowledgment of `TunnelManager._handle_data_packet`. -/
def ackObj (size : Nat) : JObj :=
  [("status", JVal.s "ack"), ("size", JVal.n size)]

/-- The error reply built in the `except` clause of
`TunnelManager._handle_forward_request` (lines 200-211). -/
def errObj (msg : String) : JObj :=
  [("status", JVal.s "error"), ("error", JVal.s msg)]

/-- The UTF-8 code units of an ASCII literal used by the classifier. -/
def ascii (s : String) : List Nat := s.toList.map Char.toNat

/-- Python `bytes.decode("latin-1")`: every byte below 256 maps to the code
point of the same value, so arbitrary response bytes become a JSON-safe
string. -/
def latin1 (l : List Nat) : String := String.mk (l.map Char.ofNat)

/-- Byte-level `str.startswith(tag)` for the ASCII tags of the classifier. -/
def hasTag : List Nat → List Nat → Bool
  | _, [] => true
  | [], _ :: _ => false
  | a :: l, b :: p => a == b && hasTag l p

/-- Split a byte list at the first colon (byte 58), if any. -/
def breakAtColon : List Nat → Option (List Nat × List Nat)
  | [] => none
  | a :: r =>
    if a = 58 then some ([], r)
    else
      match breakAtColon r with
      | none => none
      | some (b, c) => some (a :: b, c)

/-- Python `s.split(":", maxsplit)` on bytes: at most `maxsplit` splits at
colons, the remainder kept whole. -/
def pySplitColon (maxsplit : Nat) (l : List Nat) : List (List Nat) :=
  match maxsplit with
  | 0 => [l]
  | m + 1 =>
    match breakAtColon l with
    | none => [l]
    | some (before, after) => before :: pySplitColon m after

/-- Value of a nonempty all-ASCII-digit byte list. -/
def digitsVal : List Nat → Option Nat
  | [] => none
  | [d] => if 48 ≤ d && d ≤ 57 then some (d - 48) else none
  | d :: r =>
    if 48 ≤ d && d ≤ 57 then
      match digitsVal r with
      | some v => some ((d - 48) * 10 ^ r.length + v)
      | none => none
    else none

/-- Leading and trailing ASCII whitespace removal, as Python `int` does
before parsing. -/
def stripWs (l : List Nat) : List Nat :=
  let ws := fun b : Nat => b = 32 || b = 9 || b = 10 || b = 13 || b = 11 || b = 12
  (l.dropWhile ws).reverse.dropWhile ws |>.reverse

/-- Python `int(s)` on the text of a record field: optional surrounding
whitespace, an optional sign, then decimal digits.  (Unicode digits and
underscore digit grouping, which Python also accepts, are not modelled;
the claims settled here only rely on plain digit strings parsing and on
non-numeric strings failing with ValueError.) -/
def pyInt (l : List Nat) : Option Int :=
  match stripWs l with
  | 43 :: r => (digitsVal r).map fun v => (v : Int)
  | 45 :: r => (digitsVal r).map fun v => -(v : Int)
  | r => (digitsVal r).map fun v => (v : Int)

/-- The message text of the ValueError raised by `int(s)` on a non-numeric
string.  (Python also quotes the offending literal; the exact text does not
matter to any claim.) -/
def intParseErrMsg : String := "invalid literal for int() with base 10"

/-- Outcome of the upstream TCP interaction performed by
`_handle_forward_request`: the connect can fail (refused, unreachable or
the 10-second timeout), the send or the recv can fail after the connect
succeeded, or everything succeeds and `recv` returns `resp`.  A send
failure presumes nonempty data, since the source only sends when `data`
is truthy. -/
inductive Upstream where
  | connectFail (msg : String)
  | sendFail (msg : String)
  | recvFail (msg : String)
  | ok (resp : List Nat)

/-- `TunnelManager._handle_forward_request` (src/server/tunnel_manager.py
lines 142-211).  Splits `FORWARD:host:port:data` with
`request.split(":", 3)`; when fewer than 3 parts result, the body does
nothing and no reply is sent.  `int(parts[2])` failing, and any upstream
failure, land in the `except` clause, which sends the encrypted
`\x7b"status": "error", "error": str(e)\x7d` reply; the successful path sends
`\x7b"status": "success", "data": response.decode("latin-1")\x7d`.  Counters
are bumped exactly where the source bumps them. -/
def handleForward (ups : Upstream) (req : List Nat) (st : TunnelStats) :
    Option JObj × TunnelStats :=
  let parts := pySplitColon 3 req
  if parts.length ≥ 3 then
    match pyInt (parts.getD 2 []) with
    | none => (some (errObj intParseErrMsg), st)
    | some _port =>
      let data := parts.getD 3 []
      match ups with
      | Upstream.connectFail m => (some (errObj m), st)
      | Upstream.sendFail m =>
        (some (errObj m), { st with connections := st.connections + 1 })
      | Upstream.recvFail m =>
        let st1 := { st with connections := st.connections + 1 }
        let st2 :=
          if data.isEmpty then st1
          else { st1 with bytes_sent := st1.bytes_sent + data.length,
                          packets_sent := st1.packets_sent + 1 }
        (some (errObj m), st2)
      | Upstream.ok resp =>
        let st1 := { st with connections := st.connections + 1 }
        let st2 :=
          if data.isEmpty then st1
          else { st1 with bytes_sent := st1.bytes_sent + data.length,
                          packets_sent := st1.packets_sent + 1 }
        let st3 := { st2 with bytes_received := st2.bytes_received + resp.length,
                              packets_received := st2.packets_received + 1 }
        (some [("status", JVal.s "success"), ("data", JVal.s (latin1 resp))], st3)
  else (none, st)

/-- Result of one iteration of `_tunnel_loop`: either the loop breaks (the
session ends) or it continues, having possibly sent one framed encrypted
reply, with updated counters and the unread remainder of the stream. -/
inductive StepResult where
  | terminated
  | continued (reply : Option JObj) (st : TunnelStats) (rest : List Nat)

/-- The classifier and handlers reached once a record decrypted to `pt`
(src/server/tunnel_manager.py lines 113-135).  `jsonType pt` abstracts
`json.loads(request_data).get("type")`: `some t` when the plaintext parses
as a JSON dict with a string value under "type", and `none` when parsing
raises or the key is missing (the bare `except: pass` makes every such
case fall through to the prefix checks).  The CONNECT branch spawns the
bidirectional splice threads and returns at once, so the loop continues;
the splice itself is concurrent behaviour outside this model. -/
def dispatchCmd (ups : Upstream) (pt : List Nat) (st : TunnelStats)
    (rest : List Nat) : StepResult :=
  if hasTag pt (ascii "FORWARD:") then
    let (rep, st2) := handleForward ups pt st
    StepResult.continued rep st2 rest
  else if hasTag pt (ascii "CONNECT:") then
    StepResult.continued none st rest
  else if hasTag pt (ascii "STATS_REQ") then
    StepResult.continued (some (statsObj st)) st rest
  else
    StepResult.continued (some (ackObj pt.length))
      { st with packets_received := st.packets_received + 1 } rest

/-- The JSON sniffing done first on a decrypted record
(src/server/tunnel_manager.py lines 113-124): a JSON dict with
`type: keepalive` or `type: stats_request` is serviced directly; every
other plaintext (non-JSON, non-dict, or an unmatched type) falls through
to the prefix classifier `dispatchCmd`. -/
def classifyAndHandle (jsonType : List Nat → Option String) (ups : Upstream)
    (pt : List Nat) (st : TunnelStats) (rest : List Nat) : StepResult :=
  match jsonType pt with
  | some t =>
    if t = "keepalive" then StepResult.continued (some keepaliveObj) st rest
    else if t = "stats_request" then
      StepResult.continued (some (statsObj st)) st rest
    else dispatchCmd ups pt st rest
  | none => dispatchCmd ups pt st rest

/-- One iteration of `TunnelManager._tunnel_loop`
(src/server/tunnel_manager.py lines 52-135), with the block-decrypt
function `g` standing for AES under the session key:
  - fewer than 4 stream bytes before the peer closes: incomplete length
    header, `break` ends the loop;
  - a declared length above `10 * 1024 * 1024`: the record is skipped with
    `continue` and the declared payload is left unread on the stream;
  - fewer payload bytes than declared before close: `continue` after
    consuming what arrived;
  - decryption failure: logged and `continue`;
  - otherwise classification and handling, then the loop continues. -/
def tunnelStep (g : List Nat → List Nat) (jsonType : List Nat → Option String)
    (ups : Upstream) (st : TunnelStats) (stream : List Nat) : StepResult :=
  if stream.length < 4 then StepResult.terminated
  else
    let len := beVal (stream.take 4)
    let rest := stream.drop 4
    if len > 10 * 1024 * 1024 then StepResult.continued none st rest
    else if rest.length < len then StepResult.continued none st (rest.drop len)
    else
      let payload := rest.take len
      let rest2 := rest.drop len
      match decrypt_aes g payload with
      | none => StepResult.continued none st rest2
      | some pt => classifyAndHandle jsonType ups pt st rest2

/-! ### Flow controller (src/server/flow_control.py)

All integer state is exact.  The RTT estimator and the throughput window
hold Python floats in the source; they are modelled with exact rationals,
which preserves every comparison the claims depend on (the integer window
arithmetic never reads the float fields).  Wall-clock readings
(`time.time()`) enter `on_ack_received` through `_update_throughput`; the
reading is passed in as the event field `now`. -/

/-- `self.max_window_size = 1048576` (1 MiB). -/
def maxWindow : Nat := 1048576

/-- `self.min_window_size = 4096` (4 KiB). -/
def minWindow : Nat := 4096

/-- The mutable state of `FlowController.__init__`
(src/server/flow_control.py lines 17-44). -/
structure FlowState where
  window_size : Nat
  ssthresh : Nat
  cwnd : Nat
  in_slow_start : Bool
  rtt_samples : List Rat
  smoothed_rtt : Rat
  rtt_variance : Rat
  packets_in_flight : Int
  total_packets_sent : Nat
  total_packets_acked : Nat
  retransmissions : Nat
  throughput_samples : List Rat
  last_stat_time : Rat
  bytes_transferred : Nat

/-- A fresh `FlowController(initial_window_size)`; `t0` is the
`time.time()` reading stored in `last_stat_time`. -/
def flowInit (iws : Nat) (t0 : Rat) : FlowState :=
  { window_size := iws
    ssthresh := iws / 2
    cwnd := minWindow
    in_slow_start := true
    rtt_samples := []
    smoothed_rtt := 0
    rtt_variance := 0
    packets_in_flight := 0
    total_packets_sent := 0
    total_packets_acked := 0
    retransmissions := 0
    throughput_samples := []
    last_stat_time := t0
    bytes_transferred := 0 }

/-- `deque(maxlen = m).append`: drop from the left once the bound is hit. -/
def pushCap (m : Nat) (l : List Rat) (x : Rat) : List Rat :=
  let l2 := l ++ [x]
  if l2.length > m then l2.drop (l2.length - m) else l2

/-- `FlowController._update_rtt` (lines 124-139): RFC 6298-style EWMA with
alpha 0.125 and beta 0.25; the first sample initialises SRTT and RTTVAR. -/
def updateRtt (s : FlowState) (rtt : Rat) : FlowState :=
  let s1 := { s with rtt_samples := pushCap 10 s.rtt_samples rtt }
  if s1.smoothed_rtt = 0 then
    { s1 with smoothed_rtt := rtt, rtt_variance := rtt / 2 }
  else
    let error := rtt - s1.smoothed_rtt
    { s1 with smoothed_rtt := s1.smoothed_rtt + (1 / 8) * error
              rtt_variance := s1.rtt_variance + (1 / 4) * (|error| - s1.rtt_variance) }

/-- `FlowController._update_throughput` (lines 141-151): when at least one
second elapsed since `last_stat_time`, push a bytes-per-second sample onto
the 20-sample window and reset the accumulator. -/
def updateThroughput (s : FlowState) (now : Rat) : FlowState :=
  let timeDelta := now - s.last_stat_time
  if timeDelta ≥ 1 then
    { s with throughput_samples := pushCap 20 s.throughput_samples
               ((s.bytes_transferred : Rat) / timeDelta)
             bytes_transferred := 0
             last_stat_time := now }
  else s

/-- The calls a claim quantifies over: the public mutating and querying
operations of `FlowController`.  `canSend` and `getTimeout` read but never
write the state. -/
inductive FlowEvent where
  | canSend (n : Nat)
  | packetSent (n : Nat)
  | ackReceived (n : Nat) (rtt : Rat) (now : Rat)
  | packetLoss
  | timeout
  | getTimeout

/-- One call on the controller (src/server/flow_control.py lines 46-122):
  - `can_send` and `get_timeout` leave the state unchanged;
  - `on_packet_sent`: `packets_in_flight += 1`, totals and bytes;
  - `on_ack_received(n, rtt)`: `packets_in_flight -= 1` (no lower bound in
    the source), total acked, RTT update, then the Reno window update:
    slow start adds `n` and leaves slow start once `cwnd >= ssthresh`;
    congestion avoidance adds `max(1, n * n // cwnd)`; in both cases
    `cwnd = min(cwnd, max_window_size)`, then the throughput update;
  - `on_packet_loss`: `ssthresh = max(cwnd // 2, min_window)`,
    `cwnd = ssthresh`, slow start off, retransmissions counted;
  - `on_timeout`: `ssthresh = max(cwnd // 2, min_window)`,
    `cwnd = min_window`, slow start on. -/
def flowStep (s : FlowState) : FlowEvent → FlowState
  | FlowEvent.canSend _ => s
  | FlowEvent.getTimeout => s
  | FlowEvent.packetSent n =>
    { s with packets_in_flight := s.packets_in_flight + 1
             total_packets_sent := s.total_packets_sent + 1
             bytes_transferred := s.bytes_transferred + n }
  | FlowEvent.ackReceived n rtt now =>
    let s1 := { s with packets_in_flight := s.packets_in_flight - 1
                       total_packets_acked := s.total_packets_acked + 1 }
    let s2 := updateRtt s1 rtt
    let s3 :=
      if s2.in_slow_start then
        let cwnd2 := s2.cwnd + n
        { s2 with cwnd := cwnd2
                  in_slow_start := decide (cwnd2 < s2.ssthresh) }
      else
        { s2 with cwnd := s2.cwnd + max 1 (n * n / s2.cwnd) }
    let s4 := { s3 with cwnd := min s3.cwnd maxWindow }
    updateThroughput s4 now
  | FlowEvent.packetLoss =>
    let newSsthresh := max (s.cwnd / 2) minWindow
    { s with retransmissions := s.retransmissions + 1
             ssthresh := newSsthresh
             cwnd := newSsthresh
             in_slow_start := false }
  | FlowEvent.timeout =>
    { s with ssthresh := max (s.cwnd / 2) minWindow
             cwnd := minWindow
             in_slow_start := true }


/-! ### Shared lemmas about framing, classification and the flow state -/

theorem beBytes4_length (n : Nat) : (beBytes4 n).length = 4 := rfl

theorem beVal_beBytes4 (n : Nat) (h : n < 4294967296) : beVal (beBytes4 n) = n := by
  simp only [beBytes4, beVal, List.foldl]
  omega

theorem hasTag_append (tag r : List Nat) : hasTag (tag ++ r) tag = true := by
  induction tag with
  | nil => cases r <;> rfl
  | cons a l ih => simpa [hasTag] using ih

theorem breakAtColon_none_of_not_mem (a : List Nat) (h : 58 ∉ a) :
    breakAtColon a = none := by
  induction a with
  | nil => rfl
  | cons x r ih =>
    have hx : x ≠ 58 := by
      intro hcontra
      exact h (by simp [hcontra])
    have hr : 58 ∉ r := fun hm => h (by simp [hm])
    simp [breakAtColon, hx, ih hr]

theorem breakAtColon_split (a b : List Nat) (h : 58 ∉ a) :
    breakAtColon (a ++ 58 :: b) = some (a, b) := by
  induction a with
  | nil => simp [breakAtColon]
  | cons x r ih =>
    have hx : x ≠ 58 := by
      intro hcontra
      exact h (by simp [hcontra])
    have hr : 58 ∉ r := fun hm => h (by simp [hm])
    simp [breakAtColon, hx, ih hr]

/-- Rewriting of the FORWARD tag for the splitter: the tag ends in the
first colon the splitter finds. -/
theorem forwardTag_cons (x : List Nat) :
    ascii "FORWARD:" ++ x = ascii "FORWARD" ++ 58 :: x := by
  have h : ascii "FORWARD:" = ascii "FORWARD" ++ [58] := by decide
  rw [h, List.append_assoc]
  rfl

/-- `"FORWARD:host:port:data".split(":", 3)` yields exactly the four parts
when the host and port fields hold no colon; the payload keeps any further
colons. -/
theorem pySplit_forward (host port data : List Nat)
    (hh : 58 ∉ host) (hp : 58 ∉ port) :
    pySplitColon 3 (ascii "FORWARD:" ++ (host ++ 58 :: (port ++ 58 :: data)))
      = [ascii "FORWARD", host, port, data] := by
  rw [forwardTag_cons]
  have hfw : (58 : Nat) ∉ ascii "FORWARD" := by decide
  have h1 : breakAtColon (ascii "FORWARD" ++ 58 :: (host ++ 58 :: (port ++ 58 :: data)))
      = some (ascii "FORWARD", host ++ 58 :: (port ++ 58 :: data)) :=
    breakAtColon_split _ _ hfw
  have h2 : breakAtColon (host ++ 58 :: (port ++ 58 :: data))
      = some (host, port ++ 58 :: data) :=
    breakAtColon_split _ _ hh
  have h3 : breakAtColon (port ++ 58 :: data) = some (port, data) :=
    breakAtColon_split _ _ hp
  simp [pySplitColon, h1, h2, h3]

/-- One dispatcher iteration on a well-formed frame whose payload decrypts:
the frame header is consumed, the payload is read in full and the record is
classified; the remaining stream is exactly the tail after the frame. -/
theorem tunnelStep_frame (g : List Nat → List Nat) (jt : List Nat → Option String)
    (ups : Upstream) (st : TunnelStats) (payload pt tail : List Nat)
    (hlen : payload.length ≤ 10485760)
    (hd : decrypt_aes g payload = some pt) :
    tunnelStep g jt ups st (beBytes4 payload.length ++ payload ++ tail)
      = classifyAndHandle jt ups pt st tail := by
  rw [List.append_assoc]
  have hlt : payload.length < 4294967296 := by omega
  have htake4 : (beBytes4 payload.length ++ (payload ++ tail)).take 4
      = beBytes4 payload.length :=
    take_append_len _ _ _ (beBytes4_length _)
  have hbe : beVal (beBytes4 payload.length) = payload.length := beVal_beBytes4 _ hlt
  have hdrop4 : (beBytes4 payload.length ++ (payload ++ tail)).drop 4 = payload ++ tail :=
    drop_append_len _ _ _ (beBytes4_length _)
  have hslen : (beBytes4 payload.length ++ (payload ++ tail)).length
      = 4 + (payload.length + tail.length) := by
    simp [beBytes4]
    omega
  have htakep : (payload ++ tail).take payload.length = payload :=
    take_append_len _ _ _ rfl
  have hdropp : (payload ++ tail).drop payload.length = tail :=
    drop_append_len _ _ _ rfl
  unfold tunnelStep
  rw [if_neg (by omega)]
  simp only [htake4, hbe, hdrop4]
  rw [if_neg (by omega)]
  rw [if_neg (by simp)]
  rw [htakep, hdropp, hd]

theorem updateRtt_cwnd (s : FlowState) (r : Rat) : (updateRtt s r).cwnd = s.cwnd := by
  simp only [updateRtt]
  split <;> rfl

theorem updateRtt_ssthresh (s : FlowState) (r : Rat) :
    (updateRtt s r).ssthresh = s.ssthresh := by
  simp only [updateRtt]
  split <;> rfl

theorem updateRtt_slow (s : FlowState) (r : Rat) :
    (updateRtt s r).in_slow_start = s.in_slow_start := by
  simp only [updateRtt]
  split <;> rfl

theorem updateRtt_pif (s : FlowState) (r : Rat) :
    (updateRtt s r).packets_in_flight = s.packets_in_flight := by
  simp only [updateRtt]
  split <;> rfl

theorem updateRtt_sent (s : FlowState) (r : Rat) :
    (updateRtt s r).total_packets_sent = s.total_packets_sent := by
  simp only [updateRtt]
  split <;> rfl

theorem updateRtt_acked (s : FlowState) (r : Rat) :
    (updateRtt s r).total_packets_acked = s.total_packets_acked := by
  simp only [updateRtt]
  split <;> rfl

theorem updateThroughput_cwnd (s : FlowState) (now : Rat) :
    (updateThroughput s now).cwnd = s.cwnd := by
  simp only [updateThroughput]
  split <;> rfl

theorem updateThroughput_ssthresh (s : FlowState) (now : Rat) :
    (updateThroughput s now).ssthresh = s.ssthresh := by
  simp only [updateThroughput]
  split <;> rfl

theorem updateThroughput_slow (s : FlowState) (now : Rat) :
    (updateThroughput s now).in_slow_start = s.in_slow_start := by
  simp only [updateThroughput]
  split <;> rfl

theorem updateThroughput_pif (s : FlowState) (now : Rat) :
    (updateThroughput s now).packets_in_flight = s.packets_in_flight := by
  simp only [updateThroughput]
  split <;> rfl

theorem updateThroughput_sent (s : FlowState) (now : Rat) :
    (updateThroughput s now).total_packets_sent = s.total_packets_sent := by
  simp only [updateThroughput]
  split <;> rfl

theorem updateThroughput_acked (s : FlowState) (now : Rat) :
    (updateThroughput s now).total_packets_acked = s.total_packets_acked := by
  simp only [updateThroughput]
  split <;> rfl

/-- The integer effect of one `on_ack_received(n, rtt)` call: the window
update and the bookkeeping, read off the state after the call. -/
theorem flowStep_ack (s : FlowState) (n : Nat) (rtt now : Rat) :
    (flowStep s (FlowEvent.ackReceived n rtt now)).cwnd
      = min (if s.in_slow_start then s.cwnd + n else s.cwnd + max 1 (n * n / s.cwnd))
          maxWindow
  ∧ (flowStep s (FlowEvent.ackReceived n rtt now)).in_slow_start
      = (if s.in_slow_start then decide (s.cwnd + n < s.ssthresh) else false)
  ∧ (flowStep s (FlowEvent.ackReceived n rtt now)).ssthresh = s.ssthresh
  ∧ (flowStep s (FlowEvent.ackReceived n rtt now)).packets_in_flight
      = s.packets_in_flight - 1
  ∧ (flowStep s (FlowEvent.ackReceived n rtt now)).total_packets_sent
      = s.total_packets_sent
  ∧ (flowStep s (FlowEvent.ackReceived n rtt now)).total_packets_acked
      = s.total_packets_acked + 1 := by
  unfold flowStep
  cases hss : s.in_slow_start <;>
    simp [updateRtt_cwnd, updateRtt_ssthresh, updateRtt_slow, updateRtt_pif,
      updateRtt_sent, updateRtt_acked, updateThroughput_cwnd, updateThroughput_ssthresh,
      updateThroughput_slow, updateThroughput_pif, updateThroughput_sent,
      updateThroughput_acked, hss]

/-- The state predicate preserved by every controller call: window bounds,
threshold lower bound, and the exact packets-in-flight balance. -/
def FlowInv (s : FlowState) : Prop :=
  minWindow ≤ s.cwnd ∧ s.cwnd ≤ maxWindow ∧ minWindow ≤ s.ssthresh ∧
    s.packets_in_flight
      = (s.total_packets_sent : Int) - (s.total_packets_acked : Int)

theorem flowStep_preserves (s : FlowState) (e : FlowEvent) (h : FlowInv s) :
    FlowInv (flowStep s e) := by
  obtain ⟨h1, h2, h3, h4⟩ := h
  have hminmax : minWindow ≤ maxWindow := by decide
  cases e with
  | canSend n => exact ⟨h1, h2, h3, h4⟩
  | getTimeout => exact ⟨h1, h2, h3, h4⟩
  | packetSent n =>
    refine ⟨h1, h2, h3, ?_⟩
    simp only [flowStep]
    push_cast
    omega
  | ackReceived n rtt now =>
    obtain ⟨ha1, ha2, ha3, ha4, ha5, ha6⟩ := flowStep_ack s n rtt now
    refine ⟨?_, ?_, ?_, ?_⟩
    · rw [ha1]
      rcases Bool.eq_false_or_eq_true s.in_slow_start with hb | hb <;>
        simp [hb] <;> omega
    · rw [ha1]
      exact min_le_right _ _
    · rw [ha3]; exact h3
    · rw [ha4, ha5, ha6]
      push_cast
      omega
  | packetLoss =>
    refine ⟨le_max_right _ _, ?_, le_max_right _ _, h4⟩
    show max (s.cwnd / 2) minWindow ≤ maxWindow
    exact max_le (le_trans (Nat.div_le_self _ _) h2) hminmax
  | timeout =>
    exact ⟨le_refl _, hminmax, le_max_right _ _, h4⟩

theorem foldl_flowInv (evs : List FlowEvent) :
    ∀ s, FlowInv s → FlowInv (evs.foldl flowStep s) := by
  induction evs with
  | nil => intro s h; exact h
  | cons e r ih =>
    intro s h
    exact ih (flowStep s e) (flowStep_preserves s e h)

/-! ### The claims -/

/-- Claim C1, counterexample.  A record with declared length
`10 * 2 ^ 20 + 1 = 10485761` does not terminate the session: the
dispatcher hits the oversize branch, prints and `continue`s, leaving the
declared payload bytes unread on the stream.  The claim says the loop ends;
the step result is `continued`, not `terminated`. -/
theorem c1_oversize_not_terminated :
    tunnelStep (fun b => b) (fun _ => none) (Upstream.connectFail "x") initStats
      (beBytes4 10485761 ++ [1, 2, 3])
      = StepResult.continued none initStats [1, 2, 3]
  ∧ tunnelStep (fun b => b) (fun _ => none) (Upstream.connectFail "x") initStats
      (beBytes4 10485761 ++ [1, 2, 3]) ≠ StepResult.terminated := by
  refine ⟨rfl, fun hcontra => ?_⟩
  have h1 : tunnelStep (fun b => b) (fun _ => none) (Upstream.connectFail "x") initStats
      (beBytes4 10485761 ++ [1, 2, 3])
      = StepResult.continued none initStats [1, 2, 3] := rfl
  rw [h1] at hcontra
  exact StepResult.noConfusion hcontra

/-- Claim C1, amended.  For every session and every stream whose next
record declares a 4-byte big-endian length above 10 MiB, the dispatcher
skips the record without reading the declared payload (only the 4 header
bytes are consumed) and continues the loop; the session is not
terminated. -/
theorem c1_oversize_skipped (g : List Nat → List Nat) (jt : List Nat → Option String)
    (ups : Upstream) (st : TunnelStats) (stream : List Nat)
    (h4 : 4 ≤ stream.length) (hbig : 10485760 < beVal (stream.take 4)) :
    tunnelStep g jt ups st stream = StepResult.continued none st (stream.drop 4) := by
  simp only [tunnelStep]
  rw [if_neg (by omega), if_pos (by omega)]

/-- Claim C1, witness for the amended theorem at a concrete oversize
frame. -/
theorem c1_oversize_skipped_witness :
    tunnelStep (fun b => b) (fun _ => none) (Upstream.connectFail "y") initStats
      (beBytes4 20000000 ++ [7])
      = StepResult.continued none initStats ((beBytes4 20000000 ++ [7]).drop 4) :=
  c1_oversize_skipped (fun b => b) (fun _ => none) (Upstream.connectFail "y") initStats
    (beBytes4 20000000 ++ [7]) (by decide) (by decide)

/-- Claim C2, counterexample.  A well-formed 32-byte input whose decrypted
block ends in `... 9 2` has malformed PKCS7 padding (the 2 trailing bytes
are 9 and 2, not 2 and 2), yet `decrypt_aes` returns a value: the padding
is never checked.  The block function is instantiated with the identity;
since AES-CBC is a bijection for every key, a ciphertext decrypting to the
same block exists for every 32-byte key, and the unpadding code under test
is independent of the block function. -/
theorem c2_malformed_padding_accepted :
    decrypt_aes (fun b => b)
      (List.replicate 16 0 ++ [65, 66, 7, 7, 7, 7, 7, 7, 7, 7, 7, 7, 7, 7, 9, 2])
      = some [65, 66, 7, 7, 7, 7, 7, 7, 7, 7, 7, 7, 7, 7]
  ∧ decrypt_aes (fun b => b)
      (List.replicate 16 0 ++ [65, 66, 7, 7, 7, 7, 7, 7, 7, 7, 7, 7, 7, 7, 9, 2])
      ≠ none := by
  refine ⟨by decide, by decide⟩

/-- Claim C2, amended.  `decrypt_aes` fails whenever the input is shorter
than 16 bytes (the library rejects the short IV), whenever the input is
exactly 16 bytes (empty ciphertext: `_unpad` indexes into empty bytes), and
whenever the ciphertext length is not a multiple of 16 — but these errors
are raised by the libraries (ValueError, IndexError), not by a
`ProtocolError`, which does not exist in the repository; and malformed
PKCS7 padding is not detected at all: the last conjunct shows a malformed
input on which `decrypt_aes` returns a value. -/
theorem c2_decrypt_failure_cases :
    (∀ g r, r.length < 16 → decrypt_aes g r = none)
  ∧ (∀ g r, r.length = 16 → decrypt_aes g r = none)
  ∧ (∀ g r, (r.length - 16) % 16 ≠ 0 → decrypt_aes g r = none)
  ∧ decrypt_aes (fun b => b)
      (List.replicate 16 0 ++ [66, 67, 7, 7, 7, 7, 7, 7, 7, 7, 7, 7, 7, 7, 9, 2])
      = some [66, 67, 7, 7, 7, 7, 7, 7, 7, 7, 7, 7, 7, 7] := by
  refine ⟨?_, ?_, ?_, by decide⟩
  · intro g r h
    simp only [decrypt_aes]
    rw [if_pos (by simp [List.length_take]; omega)]
  · intro g r h
    simp only [decrypt_aes]
    rw [if_neg (by simp [List.length_take]; omega)]
    rw [if_neg (by simp [List.length_drop]; omega)]
    have hdrop : r.drop 16 = [] :=
      List.eq_nil_of_length_eq_zero (by simp [List.length_drop]; omega)
    rw [hdrop]
    rw [if_pos (show cbcDec g (r.take 16) [] = [] from rfl)]
  · intro g r h
    have h16 : 16 < r.length := by
      by_contra hc
      have : r.length - 16 = 0 := by omega
      rw [this] at h
      simp at h
    simp only [decrypt_aes]
    rw [if_neg (by simp [List.length_take]; omega)]
    rw [if_pos (by simp [List.length_drop]; omega)]

/-- Claim C2, witness for the failure conjuncts of the amended theorem. -/
theorem c2_decrypt_failure_cases_witness :
    decrypt_aes (fun b => b) [1, 2, 3] = none
  ∧ decrypt_aes (fun b => b) (List.replicate 16 0) = none
  ∧ decrypt_aes (fun b => b) (List.replicate 24 0) = none :=
  ⟨c2_decrypt_failure_cases.1 (fun b => b) [1, 2, 3] (by decide),
   c2_decrypt_failure_cases.2.1 (fun b => b) (List.replicate 16 0) (by decide),
   c2_decrypt_failure_cases.2.2.1 (fun b => b) (List.replicate 24 0) (by decide)⟩

/-- Claim C3, code bug.  On successful authentication the server calls
`create_auth_response` with the `server_info` dict, but the handler merges
that dict into the top level with `response.update(server_info)`: the
response has keys `status, message, server_ip, features, encryption,
key_exchange` and no nested `server_info` object.  The in-repo client
(src/client/vpn_client_enhanced.py line 144) reads
`response.get("server_info", \x7b\x7d)` and therefore always sees an empty
dict, so the flattening contradicts the code of its own caller. -/
theorem c3_server_info_flattened :
    jget (createAuthResponse true "VPN tunnel established - Full forwarding enabled"
      (successServerInfo "0.0.0.0")) "server_info" = none
  ∧ jkeys (createAuthResponse true "VPN tunnel established - Full forwarding enabled"
      (successServerInfo "0.0.0.0"))
      = ["status", "message", "server_ip", "features", "encryption", "key_exchange"] :=
  ⟨rfl, rfl⟩

/-- Claim C4, counterexample.  An in-session `STATS_REQ` record is answered
by `TunnelManager._handle_stats_request`, whose reply is
`json.dumps(self.stats)`: the flat tunnel counters.  The reply has none of
the keys `tunnel_stats`, `flow_control_stats`, `server_stats` the claim
requires (those appear only in `VPNServerEnhanced._send_statistics`, which
no code path calls). -/
theorem c4_stats_reply_missing_sections :
    tunnelStep (fun b => b) (fun _ => none) (Upstream.connectFail "refused") initStats
      (beBytes4 (encrypt_aes (fun b => b) (List.replicate 16 0) (ascii "STATS_REQ")).length
        ++ encrypt_aes (fun b => b) (List.replicate 16 0) (ascii "STATS_REQ"))
      = StepResult.continued (some (statsObj initStats)) initStats []
  ∧ jget (statsObj initStats) "tunnel_stats" = none
  ∧ jget (statsObj initStats) "flow_control_stats" = none
  ∧ jget (statsObj initStats) "server_stats" = none :=
  ⟨rfl, rfl, rfl, rfl⟩

/-- Claim C4, amended.  For every in-session stats request — a JSON record
with `type: stats_request`, or a record matching the `STATS_REQ` literal
prefix — the dispatcher reply is the flat tunnel-counters object, whose
keys are exactly `bytes_sent, bytes_received, packets_sent,
packets_received, connections`, and the loop continues. -/
theorem c4_stats_reply_keys (g : List Nat → List Nat) (jt : List Nat → Option String)
    (ups : Upstream) (st : TunnelStats) (payload pt tail : List Nat)
    (hlen : payload.length ≤ 10485760)
    (hd : decrypt_aes g payload = some pt)
    (hcase : jt pt = some "stats_request"
      ∨ (jt pt = none ∧ hasTag pt (ascii "FORWARD:") = false
          ∧ hasTag pt (ascii "CONNECT:") = false
          ∧ hasTag pt (ascii "STATS_REQ") = true)) :
    tunnelStep g jt ups st (beBytes4 payload.length ++ payload ++ tail)
      = StepResult.continued (some (statsObj st)) st tail
  ∧ jkeys (statsObj st)
      = ["bytes_sent", "bytes_received", "packets_sent", "packets_received",
         "connections"] := by
  refine ⟨?_, rfl⟩
  rw [tunnelStep_frame g jt ups st payload pt tail hlen hd]
  unfold classifyAndHandle
  rcases hcase with hjs | ⟨hn, hf, hc, hs⟩
  · simp only [hjs]
    simp
  · simp only [hn]
    simp [dispatchCmd, hf, hc, hs]

/-- Claim C4, witness for the amended theorem on a concrete `STATS_REQ`
record. -/
theorem c4_stats_reply_keys_witness :
    tunnelStep (fun b => b) (fun _ => none) (Upstream.connectFail "e") initStats
      (beBytes4 (encrypt_aes (fun b => b) (List.replicate 16 0) (ascii "STATS_REQ")).length
        ++ encrypt_aes (fun b => b) (List.replicate 16 0) (ascii "STATS_REQ") ++ [5, 6])
      = StepResult.continued (some (statsObj initStats)) initStats [5, 6]
  ∧ jkeys (statsObj initStats)
      = ["bytes_sent", "bytes_received", "packets_sent", "packets_received",
         "connections"] :=
  c4_stats_reply_keys (fun b => b) (fun _ => none) (Upstream.connectFail "e") initStats
    (encrypt_aes (fun b => b) (List.replicate 16 0) (ascii "STATS_REQ"))
    (ascii "STATS_REQ") [5, 6] (by decide) (by decide)
    (Or.inr ⟨rfl, by decide, by decide, by decide⟩)

/-- Claim C5, counterexample.  On a freshly constructed controller a single
`on_ack_received` call drives `packets_in_flight` to -1: the source
decrements without any lower bound, so the claimed invariant
`packets_in_flight >= 0` fails after this one-call sequence. -/
theorem c5_packets_in_flight_negative :
    (flowStep (flowInit 65536 0) (FlowEvent.ackReceived 1024 1 0)).packets_in_flight
      < 0 := by
  unfold flowStep updateThroughput updateRtt flowInit
  norm_num

/-- Claim C5, amended.  For every finite call sequence on a freshly
constructed default controller, after every call: `min_window <= cwnd <=
max_window` (4096 and 1048576) and `ssthresh >= min_window` hold, and
`packets_in_flight` equals the number of `on_packet_sent` calls minus the
number of `on_ack_received` calls so far — hence it is nonnegative exactly
when acks never outnumber sends, and can go negative otherwise. -/
theorem c5_flow_invariants (evs : List FlowEvent) :
    minWindow ≤ (evs.foldl flowStep (flowInit 65536 0)).cwnd
  ∧ (evs.foldl flowStep (flowInit 65536 0)).cwnd ≤ maxWindow
  ∧ minWindow ≤ (evs.foldl flowStep (flowInit 65536 0)).ssthresh
  ∧ (evs.foldl flowStep (flowInit 65536 0)).packets_in_flight
      = ((evs.foldl flowStep (flowInit 65536 0)).total_packets_sent : Int)
        - ((evs.foldl flowStep (flowInit 65536 0)).total_packets_acked : Int) :=
  foldl_flowInv evs (flowInit 65536 0) ⟨by decide, by decide, by decide, by decide⟩

/-- Claim C6, code bug.  The success auth response is framed as a 4-byte
big-endian length followed by the ciphertext, but the rejection branch
sends the bare ciphertext with no length header, although the in-repo
client reads a 4-byte length for both variants of step 4
(src/client/vpn_client_enhanced.py lines 113-131). -/
theorem c6_reject_response_unframed :
    authSuccessWire (List.replicate 76 9)
      = beBytes4 (List.replicate 76 9).length ++ List.replicate 76 9
  ∧ authRejectWire (List.replicate 76 9) = List.replicate 76 9
  ∧ authRejectWire (List.replicate 76 9)
      ≠ beBytes4 (List.replicate 76 9).length ++ List.replicate 76 9 :=
  ⟨rfl, rfl, by decide⟩

/-- Claim C7, counterexample.  The plaintext byte 0xFF is not valid UTF-8,
so the final `.decode()` of `decrypt_aes` raises UnicodeDecodeError instead
of returning the plaintext: the round trip fails for byte strings that are
not UTF-8 (the block cipher plays no role; the identity instance shows the
pipeline itself fails). -/
theorem c7_roundtrip_fails_non_utf8 :
    decrypt_aes (fun b => b) (encrypt_aes (fun b => b) (List.replicate 16 0) [255])
      ≠ some [255] := by decide

/-- Claim C7, amended.  For every 16-byte IV and every inverse pair of
16-byte block functions: the round trip `decrypt(encrypt(p))` returns `p`
for every plaintext that is valid UTF-8 (equivalently, every plaintext that
arrives as a Python str; non-UTF-8 byte strings make the final decode
raise), and for every byte string `p` whatsoever the framed record payload
has length exactly `len(p_padded) + 16`, where the padding adds
`16 - len(p) % 16` bytes (a full block when already aligned). -/
theorem c7_roundtrip_utf8_and_length (f g : List Nat → List Nat)
    (hfg : ∀ b, b.length = 16 → g (f b) = b)
    (hflen : ∀ b, b.length = 16 → (f b).length = 16)
    (iv : List Nat) (hiv : iv.length = 16) :
    (∀ p, isValidUtf8 p = true → decrypt_aes g (encrypt_aes f iv p) = some p)
  ∧ (∀ p : List Nat,
      (encrypt_aes f iv p).length = p.length + (16 - p.length % 16) + 16) := by
  constructor
  · intro p hutf
    unfold encrypt_aes
    have hctlen : (cbcEnc f iv (pyPad p)).length = (pyPad p).length :=
      cbcEnc_length f hflen (pyPad p) iv hiv (pyPad_mod p)
    have htake : (iv ++ cbcEnc f iv (pyPad p)).take 16 = iv :=
      take_append_len _ _ _ hiv
    have hdrop : (iv ++ cbcEnc f iv (pyPad p)).drop 16 = cbcEnc f iv (pyPad p) :=
      drop_append_len _ _ _ hiv
    have hcbc : cbcDec g iv (cbcEnc f iv (pyPad p)) = pyPad p :=
      cbcDec_cbcEnc f g hfg hflen (pyPad p) iv hiv (pyPad_mod p)
    simp only [decrypt_aes]
    rw [htake, hiv]
    rw [if_neg (by omega)]
    rw [hdrop, hctlen]
    rw [if_neg (by simp [pyPad_mod])]
    rw [hcbc]
    rw [if_neg (pyPad_ne_nil p)]
    rw [pyUnpad_pyPad]
    rw [if_pos hutf]
  · intro p
    unfold encrypt_aes
    rw [List.length_append, cbcEnc_length f hflen (pyPad p) iv hiv (pyPad_mod p),
      pyPad_length]
    omega

/-- Claim C7, witness: round trip and length at a concrete 2-byte ASCII
plaintext under the identity block pair and a zero IV. -/
theorem c7_roundtrip_witness :
    decrypt_aes (fun b => b) (encrypt_aes (fun b => b) (List.replicate 16 0) [104, 105])
      = some [104, 105]
  ∧ (encrypt_aes (fun b => b) (List.replicate 16 0) [104, 105]).length
      = [104, 105].length + (16 - [104, 105].length % 16) + 16 := by
  have hthm := c7_roundtrip_utf8_and_length (fun b => b) (fun b => b)
    (fun b _ => rfl) (fun b hb => hb) (List.replicate 16 0) (by decide)
  exact ⟨hthm.1 [104, 105] (by decide), hthm.2 [104, 105]⟩

/-- Claim C9.  For every FORWARD record whose port field fails integer
parsing, or whose upstream interaction fails at connect, send or recv
(connection refused, unreachable, the 10-second connect timeout, or any
other exception), the dispatcher replies with the encrypted JSON object
`status: error, error: message` and the loop continues with the rest of
the stream intact: the session is preserved. -/
theorem c9_forward_failure_error_reply (g : List Nat → List Nat)
    (jt : List Nat → Option String) (ups : Upstream) (st : TunnelStats)
    (payload pt host port data tail : List Nat)
    (hlen : payload.length ≤ 10485760)
    (hd : decrypt_aes g payload = some pt)
    (hpt : pt = ascii "FORWARD:" ++ (host ++ 58 :: (port ++ 58 :: data)))
    (hjt : jt pt = none)
    (hh : 58 ∉ host) (hp : 58 ∉ port)
    (hfail : pyInt port = none
      ∨ (∃ m, ups = Upstream.connectFail m)
      ∨ (∃ m, ups = Upstream.sendFail m)
      ∨ (∃ m, ups = Upstream.recvFail m)) :
    ∃ msg st2,
      tunnelStep g jt ups st (beBytes4 payload.length ++ payload ++ tail)
        = StepResult.continued (some (errObj msg)) st2 tail := by
  subst hpt
  have hforward : ∃ msg st2,
      handleForward ups (ascii "FORWARD:" ++ (host ++ 58 :: (port ++ 58 :: data))) st
        = (some (errObj msg), st2) := by
    simp only [handleForward]
    rw [pySplit_forward host port data hh hp]
    rw [if_pos (by simp only [List.length_cons, List.length_nil]; omega)]
    have hgd : [ascii "FORWARD", host, port, data].getD 2 [] = port := rfl
    rw [hgd]
    cases hpi : pyInt port with
    | none => exact ⟨intParseErrMsg, st, rfl⟩
    | some v =>
      rcases hfail with hfail2 | ⟨m, hm⟩ | ⟨m, hm⟩ | ⟨m, hm⟩
      · rw [hfail2] at hpi; cases hpi
      · subst hm; exact ⟨m, st, rfl⟩
      · subst hm; exact ⟨m, _, rfl⟩
      · subst hm; exact ⟨m, _, rfl⟩
  obtain ⟨msg, st2, hf⟩ := hforward
  refine ⟨msg, st2, ?_⟩
  rw [tunnelStep_frame g jt ups st payload _ tail hlen hd]
  have htag2 : hasTag (ascii "FORWARD:" ++ (host ++ 58 :: (port ++ 58 :: data)))
      (ascii "FORWARD:") = true := hasTag_append _ _
  unfold classifyAndHandle
  simp only [hjt]
  unfold dispatchCmd
  simp only [htag2, eq_self_iff_true, if_true]
  rw [hf]

/-- Claim C9, witness: the request `FORWARD:h:x:` with unparsable port
field `x` and a refusing upstream, at a concrete frame; the reply is the
error object and the stream tail `[9]` remains to be processed. -/
theorem c9_forward_failure_witness :
    ∃ msg st2,
      tunnelStep (fun b => b) (fun _ => none) (Upstream.connectFail "refused") initStats
        (beBytes4 (encrypt_aes (fun b => b) (List.replicate 16 0)
            (ascii "FORWARD:" ++ ([104] ++ 58 :: ([120] ++ 58 :: [])))).length
          ++ encrypt_aes (fun b => b) (List.replicate 16 0)
            (ascii "FORWARD:" ++ ([104] ++ 58 :: ([120] ++ 58 :: []))) ++ [9])
        = StepResult.continued (some (errObj msg)) st2 [9] :=
  c9_forward_failure_error_reply (fun b => b) (fun _ => none)
    (Upstream.connectFail "refused") initStats
    (encrypt_aes (fun b => b) (List.replicate 16 0)
      (ascii "FORWARD:" ++ ([104] ++ 58 :: ([120] ++ 58 :: []))))
    (ascii "FORWARD:" ++ ([104] ++ 58 :: ([120] ++ 58 :: [])))
    [104] [120] [] [9]
    (by decide) (by decide) rfl rfl (by decide) (by decide)
    (Or.inl (by decide))

/-- Claim C10.  For every inverse pair of block functions, every 16-byte
IV and every nonempty decrypted block content `pp` whose length is a
multiple of 16, `decrypt_aes` strips exactly `b = pp[-1]` trailing bytes
without checking that those bytes all equal `b`; when the last byte is 0
the result is the empty string (Python `pp[:-0] == b""`).  The only
condition besides well-formed framing is that the stripped bytes decode as
UTF-8 (the hypothesis `hutf`); no padding well-formedness is required
anywhere. -/
theorem c10_unpad_no_validation (f g : List Nat → List Nat)
    (hfg : ∀ b, b.length = 16 → g (f b) = b)
    (hflen : ∀ b, b.length = 16 → (f b).length = 16)
    (iv pp : List Nat) (hiv : iv.length = 16)
    (hmod : pp.length % 16 = 0) (hne : pp ≠ [])
    (hutf : isValidUtf8 (pyUnpad pp) = true) :
    decrypt_aes g (iv ++ cbcEnc f iv pp)
      = some (if lastByte pp = 0 then []
          else pp.take (pp.length - lastByte pp)) := by
  have hctlen : (cbcEnc f iv pp).length = pp.length :=
    cbcEnc_length f hflen pp iv hiv hmod
  have htake : (iv ++ cbcEnc f iv pp).take 16 = iv := take_append_len _ _ _ hiv
  have hdrop : (iv ++ cbcEnc f iv pp).drop 16 = cbcEnc f iv pp :=
    drop_append_len _ _ _ hiv
  have hcbc : cbcDec g iv (cbcEnc f iv pp) = pp :=
    cbcDec_cbcEnc f g hfg hflen pp iv hiv hmod
  simp only [decrypt_aes]
  rw [htake, hiv]
  rw [if_neg (by omega)]
  rw [hdrop, hctlen]
  rw [if_neg (by simp [hmod])]
  rw [hcbc]
  rw [if_neg hne]
  rw [if_pos hutf]
  rfl

/-- Claim C10, witness: a single block ending in `... 5 5 3` has malformed
padding (the 3 trailing bytes are 5, 5, 3), yet decryption strips 3 bytes
and succeeds. -/
theorem c10_unpad_no_validation_witness :
    decrypt_aes (fun b => b)
      (List.replicate 16 0
        ++ cbcEnc (fun b => b) (List.replicate 16 0)
            [72, 73, 1, 1, 1, 1, 1, 1, 1, 1, 1, 1, 1, 5, 5, 3])
      = some (if lastByte [72, 73, 1, 1, 1, 1, 1, 1, 1, 1, 1, 1, 1, 5, 5, 3] = 0 then []
          else [72, 73, 1, 1, 1, 1, 1, 1, 1, 1, 1, 1, 1, 5, 5, 3].take
            ([72, 73, 1, 1, 1, 1, 1, 1, 1, 1, 1, 1, 1, 5, 5, 3].length
              - lastByte [72, 73, 1, 1, 1, 1, 1, 1, 1, 1, 1, 1, 1, 5, 5, 3])) :=
  c10_unpad_no_validation (fun b => b) (fun b => b) (fun b _ => rfl) (fun b hb => hb)
    (List.replicate 16 0) [72, 73, 1, 1, 1, 1, 1, 1, 1, 1, 1, 1, 1, 5, 5, 3]
    (by decide) (by decide) (by decide) (by decide)

/-- Claim C8.  One `on_ack_received(n, rtt)` call: in slow start the window
grows by `n` and slow start is exited exactly when the grown window reaches
`ssthresh`; in congestion avoidance the window grows by
`max(1, n * n // cwnd)` with the old window as divisor; in both cases the
result is clamped to `max_window`.  The hypothesis `0 < cwnd` records that
the Python division requires a nonzero window (always true of reachable
states, whose windows stay at or above `min_window`). -/
theorem c8_ack_window_update (s : FlowState) (n : Nat) (rtt now : Rat)
    (_hcw : 0 < s.cwnd) :
    (s.in_slow_start = true →
        (flowStep s (FlowEvent.ackReceived n rtt now)).cwnd
          = min (s.cwnd + n) maxWindow
      ∧ ((flowStep s (FlowEvent.ackReceived n rtt now)).in_slow_start = true
          ↔ s.cwnd + n < s.ssthresh))
  ∧ (s.in_slow_start = false →
        (flowStep s (FlowEvent.ackReceived n rtt now)).cwnd
          = min (s.cwnd + max 1 (n * n / s.cwnd)) maxWindow
      ∧ (flowStep s (FlowEvent.ackReceived n rtt now)).in_slow_start = false) := by
  obtain ⟨ha1, ha2, _, _, _, _⟩ := flowStep_ack s n rtt now
  constructor
  · intro hss
    refine ⟨?_, ?_⟩
    · rw [ha1]; simp [hss]
    · rw [ha2]; simp [hss]
  · intro hss
    refine ⟨?_, ?_⟩
    · rw [ha1]; simp [hss]
    · rw [ha2]; simp [hss]

/-- Claim C8, witness: a fresh controller is in slow start with window
4096 and threshold 32768; an ack of 1000 bytes yields the clamped window
`min (4096 + 1000) max_window` and stays in slow start since
`5096 < 32768`. -/
theorem c8_ack_window_update_witness :
    (flowStep (flowInit 65536 0) (FlowEvent.ackReceived 1000 1 0)).cwnd
      = min (4096 + 1000) maxWindow
  ∧ ((flowStep (flowInit 65536 0) (FlowEvent.ackReceived 1000 1 0)).in_slow_start = true
      ↔ 4096 + 1000 < 32768) :=
  (c8_ack_window_update (flowInit 65536 0) 1000 1 0 (by decide)).1 rfl
